import Mathlib

/-!
Shallow embedding of `matrix_ncurses.c`, a terminal "digital rain"
screensaver.  The C program keeps a 64-bit xorshift RNG, an array of
per-terminal-column records (`Column`), and a frame loop that resizes the
array, advances every column, and redraws.  Machine integers are modelled
as `Nat`/`Int` with explicit `% 2^64` / `% 2^32` where wraparound matters;
C `double` arithmetic on the RNG outputs is modelled exactly over `ℚ`
(the comparisons the program performs are decided identically);
the undefined `% 0` inside `irand` is modelled by `Option`.
-/

namespace Matrix

/-- One xorshift update of the 64-bit RNG state
(`s ^= s << 7; s ^= s >> 9; s ^= s << 8;` from `rnd32`). -/
def rnd32Step (s0 : Nat) : Nat :=
  let s := s0 % 2 ^ 64
  let a := (s ^^^ (s <<< 7)) % 2 ^ 64
  let b := a ^^^ (a >>> 9)
  (b ^^^ (b <<< 8)) % 2 ^ 64

/-- `rnd32()`: advance the state and return its low 32 bits together with
the new state. -/
def rnd32 (s : Nat) : Nat × Nat :=
  let s' := rnd32Step s
  (s' % 2 ^ 32, s')

/-- `irand(n) = (int)(rnd32() % (uint32_t)n)`, total model.
Meaningful only for `n ≠ 0`; see `irandC` for the faithful partial model. -/
def irand (n : Nat) (s : Nat) : Nat × Nat :=
  let rs := rnd32 s
  (rs.1 % n, rs.2)

/-- `irand(n)` as the C abstract machine has it: `rnd32() % 0` is
undefined behaviour (division by zero), modelled as `none`. -/
def irandC (n : Nat) (s : Nat) : Option (Nat × Nat) :=
  let rs := rnd32 s
  if n = 0 then none else some (rs.1 % n, rs.2)

/-- `drand() = rnd32() / (double)UINT32_MAX`, modelled exactly over `ℚ`. -/
def drand (s : Nat) : ℚ × Nat :=
  let rs := rnd32 s
  ((rs.1 : ℚ) / (2 ^ 32 - 1), rs.2)

/-- Per-column state (`struct Column`). -/
structure Column where
  head_y : Int
  tail : Int
  speed : ℚ
  active : Bool
  deriving Repr, DecidableEq

/-- Initialization of one column at construction
(lines `cols[x].active = drand() < density; … cols[x].head_y = -irand(maxy);`),
threading the RNG state in the order the C code draws. -/
def initColumn (density mul : ℚ) (h : Nat) (s : Nat) : Column × Nat :=
  let d1 := drand s
  let active := decide (d1.1 < density)
  let r2 := irand 20 d1.2
  let tail : Int := 5 + (r2.1 : Int)
  let d3 := drand r2.2
  let speed := (0.4 + d3.1 * 1.2) * mul
  let r4 := irand h d3.2
  (⟨-(r4.1 : Int), tail, speed, active⟩, r4.2)

/-- `initColumn` with the undefined `irand 0` made explicit. -/
def initColumnC (density mul : ℚ) (h : Nat) (s : Nat) :
    Option (Column × Nat) :=
  let d1 := drand s
  let active := decide (d1.1 < density)
  let r2 := irand 20 d1.2
  let tail : Int := 5 + (r2.1 : Int)
  let d3 := drand r2.2
  let speed := (0.4 + d3.1 * 1.2) * mul
  (irandC h d3.2).map fun r4 => (⟨-(r4.1 : Int), tail, speed, active⟩, r4.2)

/-- The construction loop `for(x=0;x<maxx;x++){ … }`: build `w` columns
left to right, threading the RNG state. -/
def constructCols (density mul : ℚ) (hgt : Nat) :
    Nat → Nat → List Column × Nat
  | 0, s => ([], s)
  | w + 1, s =>
    let cs := initColumn density mul hgt s
    let rest := constructCols density mul hgt w cs.2
    (cs.1 :: rest.1, rest.2)

/-- The construction loop with the undefined `irand 0` made explicit. -/
def constructColsC (density mul : ℚ) (hgt : Nat) :
    Nat → Nat → Option (List Column × Nat)
  | 0, s => some ([], s)
  | w + 1, s =>
    (initColumnC density mul hgt s).bind fun cs =>
      (constructColsC density mul hgt w cs.2).map fun rest =>
        (cs.1 :: rest.1, rest.2)

/-- The C cast `(int)` applied to a `double`: truncation toward zero. -/
def cIntCast (q : ℚ) : Int :=
  if q < 0 then -⌊-q⌋ else ⌊q⌋

/-- Head advance of an active column (line
`cols[x].head_y += cols[x].speed < 1.0 ? (drand()<cols[x].speed ? 1 : 0) : (int)cols[x].speed;`). -/
def advanceHead (c : Column) (s : Nat) : Column × Nat :=
  if c.speed < 1 then
    let d := drand s
    ({ c with head_y := c.head_y + (if d.1 < c.speed then 1 else 0) }, d.2)
  else
    ({ c with head_y := c.head_y + cIntCast c.speed }, s)

/-- Column reset when the tail is fully off-screen (lines
`cols[x].active = drand() < density; cols[x].head_y = -irand(maxy);
cols[x].tail = 5 + irand(20); cols[x].speed = (0.4 + drand()*1.2) * speed_mul;`),
drawing from the RNG in exactly that order. -/
def resetColumn (density mul : ℚ) (maxy : Nat) (s : Nat) : Column × Nat :=
  let d1 := drand s
  let active := decide (d1.1 < density)
  let r2 := irand maxy d1.2
  let head : Int := -(r2.1 : Int)
  let r3 := irand 20 r2.2
  let tail : Int := 5 + (r3.1 : Int)
  let d4 := drand r3.2
  (⟨head, tail, (0.4 + d4.1 * 1.2) * mul, active⟩, d4.2)

/-- Reactivation roll of an inactive column (lines
`else if(drand() < density/200.0){ cols[x].active = true;
cols[x].head_y = -irand(maxy); cols[x].tail = 5 + irand(20);
cols[x].speed = (0.4 + drand()*1.2) * speed_mul; }`). -/
def activateRoll (density mul : ℚ) (maxy : Nat) (c : Column) (s : Nat) :
    Column × Nat :=
  let d := drand s
  if d.1 < density / 200 then
    let r1 := irand maxy d.2
    let r2 := irand 20 r1.2
    let d3 := drand r2.2
    (⟨-(r1.1 : Int), 5 + (r2.1 : Int), (0.4 + d3.1 * 1.2) * mul, true⟩, d3.2)
  else (c, d.2)

/-- One simulator tick on one column: the body of the per-column update
loop (active: advance then maybe reset; inactive: maybe reactivate). -/
def columnStep (density mul : ℚ) (maxy : Nat) (c : Column) (s : Nat) :
    Column × Nat :=
  if c.active then
    let a := advanceHead c s
    if a.1.head_y - a.1.tail > (maxy : Int) then
      resetColumn density mul maxy a.2
    else a
  else activateRoll density mul maxy c s

/-- Iterate `columnStep` on a single column for `n` ticks. -/
def columnIter (density mul : ℚ) (maxy : Nat) :
    Nat → Column → Nat → Column × Nat
  | 0, c, s => (c, s)
  | n + 1, c, s =>
    let cs := columnStep density mul maxy c s
    columnIter density mul maxy n cs.1 cs.2

/-- One simulator tick over the whole field: the loop
`for(x=0;x<maxx;x++){ … }`, left to right, threading the RNG. -/
def simAdvance (density mul : ℚ) (maxy : Nat) :
    List Column → Nat → List Column × Nat
  | [], s => ([], s)
  | c :: cs, s =>
    let c' := columnStep density mul maxy c s
    let rest := simAdvance density mul maxy cs c'.2
    (c'.1 :: rest.1, rest.2)

/-- Resize handling (lines `Column *ncols = calloc((size_t)nx, …); …
for(int x=0; x<nx && x<maxx; x++){ ncols[x] = cols[x]; }
for(int x=maxx; x<nx; x++){ … }`): keep the overlapping prefix by value,
freshly initialize indices `[old_width, new_width)` with the new height. -/
def reflow (density mul : ℚ) (ny : Nat) (cols : List Column) (nx : Nat)
    (s : Nat) : List Column × Nat :=
  let fresh := constructCols density mul ny (nx - cols.length) s
  (cols.take nx ++ fresh.1, fresh.2)

/-- A frame-loop action that touches column state: a simulator tick at the
current viewport height, or a resize to a new width/height. -/
inductive Op where
  | tick : Op
  | resize (nx ny : Nat) : Op

/-- Field state carried across frames: columns, viewport height, RNG. -/
structure FieldState where
  cols : List Column
  maxy : Nat
  rng : Nat

/-- Apply one frame-loop action to the field state. -/
def applyOp (density mul : ℚ) (st : FieldState) : Op → FieldState
  | .tick =>
    let r := simAdvance density mul st.maxy st.cols st.rng
    ⟨r.1, st.maxy, r.2⟩
  | .resize nx ny =>
    let r := reflow density mul ny st.cols nx st.rng
    ⟨r.1, ny, r.2⟩

/-- Run a list of frame-loop actions. -/
def runOps (density mul : ℚ) (st : FieldState) : List Op → FieldState
  | [] => st
  | op :: ops => runOps density mul (applyOp density mul st op) ops

/-- The configuration set up by argument parsing (the locals
`speed_mul`, `density`, `bold_head`, `fade_trail`, `target_fps`). -/
structure Config where
  speed_mul : ℚ
  density : ℚ
  bold_head : Bool
  fade_trail : Bool
  target_fps : Int
  deriving Repr, DecidableEq

/-- `main`'s defaults. -/
def defaultConfig : Config := ⟨1, 0.25, false, true, 60⟩

/-- One command-line token as the parse loop classifies it: a recognized
flag bundled with its numeric value already read by `atof`/`atoi`
(which never fail), `--help`, or anything that falls to the `else`
branch (an unknown flag, or a value flag appearing last with
`i+1<argc` false). -/
inductive ArgTok where
  | speedTok (v : ℚ)
  | densityTok (v : ℚ)
  | boldTok
  | nofadeTok
  | fpsTok (v : Int)
  | helpTok
  | otherTok
  deriving Repr, DecidableEq

/-- The argument parse loop (lines `for(int i=1;i<argc;i++){ … }`):
returns the final configuration, or the exit code when the loop returns
early (`--help` → 0, unrecognized → usage and 1). The `--density` branch
clamps into `[0,1]`; the `--fps` branch clamps into `[10,240]`. -/
def parseArgs : List ArgTok → Config → Except Nat Config
  | [], cfg => .ok cfg
  | .speedTok v :: rest, cfg => parseArgs rest { cfg with speed_mul := v }
  | .densityTok v :: rest, cfg =>
    let d := if v < 0 then 0 else v
    let d := if d > 1 then 1 else d
    parseArgs rest { cfg with density := d }
  | .boldTok :: rest, cfg => parseArgs rest { cfg with bold_head := true }
  | .nofadeTok :: rest, cfg => parseArgs rest { cfg with fade_trail := false }
  | .fpsTok v :: rest, cfg =>
    let f := if v < 10 then 10 else v
    let f := if f > 240 then 240 else f
    parseArgs rest { cfg with target_fps := f }
  | .helpTok :: _, _ => .error 0
  | .otherTok :: _, _ => .error 1

/-- External events one frame loop iteration observes: the pending key
(if any), the viewport size `getmaxyx` reports, and whether the
`calloc` in the resize branch would succeed. -/
inductive Key where
  | quit
  | pause
  | noKey
  deriving Repr, DecidableEq

/-- Per-frame external events. -/
structure FrameEv where
  key : Key
  nx : Nat
  ny : Nat
  allocOk : Bool

/-- What the program did on its way out: whether `endwin()` ran before
the process exited, whether the OOM message was printed, and the exit
code. -/
structure RunResult where
  endwinCalled : Bool
  oomReported : Bool
  exitCode : Nat
  deriving Repr, DecidableEq

/-- The frame loop `while(1){ … }` of `main`, driven by a finite event
list (an exhausted list behaves as a quit). Quit keys `break`; a failed
resize `calloc` also just `break`s; both fall through to the trailing
`endwin(); free(cols); return 0;`. -/
def runFrames (density mul : ℚ) :
    List FrameEv → List Column → Nat → Nat → Bool → Nat → RunResult
  | [], _, _, _, _, _ => ⟨true, false, 0⟩
  | f :: rest, cols, maxx, maxy, paused, s =>
    if f.key = .quit then ⟨true, false, 0⟩
    else
      let paused' := if f.key = .pause then !paused else paused
      if f.nx ≠ maxx ∨ f.ny ≠ maxy then
        if f.allocOk then
          let r := reflow density mul f.ny cols f.nx s
          if paused' then
            runFrames density mul rest r.1 f.nx f.ny paused' r.2
          else
            let t := simAdvance density mul f.ny r.1 r.2
            runFrames density mul rest t.1 f.nx f.ny paused' t.2
        else ⟨true, false, 0⟩
      else
        if paused' then
          runFrames density mul rest cols maxx maxy paused' s
        else
          let t := simAdvance density mul maxy cols s
          runFrames density mul rest t.1 maxx maxy paused' t.2

/-- `main` after argument parsing: the startup `calloc` of the column
array (on failure `endwin(); fprintf(stderr, "OOM\n"); return 1;`),
column initialization, then the frame loop. -/
def runMain (density mul : ℚ) (w h : Nat) (startupAllocOk : Bool)
    (frames : List FrameEv) (s : Nat) : RunResult :=
  if startupAllocOk then
    let cs := constructCols density mul h w s
    runFrames density mul frames cs.1 w h false cs.2
  else ⟨true, true, 1⟩

/-! ### Basic facts about the RNG outputs -/

theorem rnd32_fst_lt (s : Nat) : (rnd32 s).1 < 2 ^ 32 :=
  Nat.mod_lt _ (by norm_num)

theorem drand_fst_eq (s : Nat) :
    (drand s).1 = ((rnd32 s).1 : ℚ) / (2 ^ 32 - 1) := rfl

theorem drand_nonneg (s : Nat) : 0 ≤ (drand s).1 := by
  rw [drand_fst_eq]
  positivity

theorem drand_le_one (s : Nat) : (drand s).1 ≤ 1 := by
  rw [drand_fst_eq]
  rw [div_le_one (by norm_num)]
  have h : ((rnd32 s).1 : ℚ) ≤ ((2 ^ 32 - 1 : Nat) : ℚ) := by
    exact_mod_cast Nat.le_of_lt_succ (by
      have := rnd32_fst_lt s
      omega)
  calc ((rnd32 s).1 : ℚ) ≤ ((2 ^ 32 - 1 : Nat) : ℚ) := h
    _ = 2 ^ 32 - 1 := by push_cast; norm_num

theorem drand_lt_one_iff (s : Nat) :
    (drand s).1 < 1 ↔ (rnd32 s).1 ≠ 2 ^ 32 - 1 := by
  rw [drand_fst_eq, div_lt_one (by norm_num : (0:ℚ) < 2 ^ 32 - 1)]
  have hlt := rnd32_fst_lt s
  have hcast : ((2 ^ 32 - 1 : Nat) : ℚ) = 2 ^ 32 - 1 := by push_cast; norm_num
  constructor
  · intro h hne
    rw [hne, hcast] at h
    exact lt_irrefl _ h
  · intro hne
    rw [← hcast]
    exact_mod_cast (by omega : (rnd32 s).1 < 2 ^ 32 - 1)

theorem irand_fst_lt (n s : Nat) (hn : 0 < n) : (irand n s).1 < n :=
  Nat.mod_lt _ hn

/-! ### Claim theorems -/

/-- C1: a zero-width viewport degrades gracefully (no columns, nothing
drawn from the RNG), but constructing even one column over a zero-height
viewport evaluates `rnd32() % (uint32_t)0` inside `irand` — division by
zero, i.e. undefined behaviour — so the claim's "never crashes on zero
width/height" fails on the zero-height side: the construction aborts
(`none`) for every RNG state. -/
theorem zero_viewport_construction (density mul : ℚ) :
    (∀ hgt s, constructColsC density mul hgt 0 s = some ([], s)) ∧
    (∀ s, constructColsC density mul 0 1 s = none) := by
  constructor
  · intro hgt s
    rfl
  · intro s
    simp [constructColsC, initColumnC, irandC]

/-- C3 counterexample: at the concrete RNG state `4938498413434036032`
the next 32-bit draw is `2^32 - 1`, so `drand()` (= `next_float()`)
returns exactly `1`, violating the claimed half-open range `[0, 1)`. -/
theorem drand_reaches_one :
    (drand 4938498413434036032).1 = 1 := by
  rw [drand_fst_eq]
  rw [show rnd32 4938498413434036032 = (4294967295, 4294967295) from rfl]
  norm_num

/-- C3 amended: for `n > 0`, `irand n` (= `next_int(n)`) lands in
`[0, n)`; `drand` (= `next_float()`) lands in the closed interval
`[0, 1]`, and is strictly below `1` exactly when the raw 32-bit draw is
not `2^32 - 1`. -/
theorem rng_range_contract (n s : Nat) (hn : 0 < n) :
    (irand n s).1 < n ∧ 0 ≤ (drand s).1 ∧ (drand s).1 ≤ 1 ∧
    ((drand s).1 < 1 ↔ (rnd32 s).1 ≠ 2 ^ 32 - 1) :=
  ⟨irand_fst_lt n s hn, drand_nonneg s, drand_le_one s, drand_lt_one_iff s⟩

/-- C3 amended, witness at `n = 5`, `s = 1`. -/
theorem rng_range_contract_witness :
    (irand 5 1).1 < 5 ∧ 0 ≤ (drand 1).1 ∧ (drand 1).1 ≤ 1 ∧
    ((drand 1).1 < 1 ↔ (rnd32 1).1 ≠ 2 ^ 32 - 1) :=
  rng_range_contract 5 1 (by norm_num)

/-- C4 counterexample: with `density = 1`, at the concrete RNG state
`4938498413434036032` the activity roll draws `drand() = 1`, so
`drand() < density` is false and the column is constructed inactive —
refuting "density = 1 always yields `is_active = true`". -/
theorem density_one_inactive_column :
    (initColumn 1 1 10 4938498413434036032).1.active = false := by
  simp only [initColumn]
  rw [decide_eq_false_iff_not, not_lt, drand_reaches_one]

/-- C4 amended: with `density = 0` every constructed column is inactive;
with `density = 1` a constructed column is active if and only if its
activity draw is not the extreme raw value `2^32 - 1` (on which
`next_float()` returns exactly `1`). -/
theorem construct_density_extremes (mul : ℚ) (hgt w s : Nat) :
    (∀ c ∈ (constructCols 0 mul hgt w s).1, c.active = false) ∧
    ((initColumn 1 mul hgt s).1.active = true ↔
      (rnd32 s).1 ≠ 2 ^ 32 - 1) := by
  constructor
  · induction w generalizing s with
    | zero => intro c hc; simp [constructCols] at hc
    | succ w ih =>
      intro c hc
      simp only [constructCols, List.mem_cons] at hc
      rcases hc with hc | hc
      · subst hc
        simp only [initColumn]
        rw [decide_eq_false_iff_not, not_lt]
        exact drand_nonneg s
      · exact ih _ c hc
  · simp only [initColumn]
    rw [decide_eq_true_eq, drand_lt_one_iff]

/-- Every way out of the frame loop falls through to the trailing
`endwin(); free(cols); return 0;`, so `endwin` always runs. -/
theorem runFrames_endwin (density mul : ℚ) :
    ∀ (frames : List FrameEv) cols maxx maxy p s,
      (runFrames density mul frames cols maxx maxy p s).endwinCalled
        = true := by
  intro frames
  induction frames with
  | nil => intro cols maxx maxy p s; rfl
  | cons f rest ih =>
    intro cols maxx maxy p s
    simp only [runFrames]
    split
    · rfl
    · repeat' split
      all_goals first
        | rfl
        | exact ih _ _ _ _ _

/-- C2 counterexample: a concrete run in which the startup allocation
succeeds and the first frame's resize `calloc` fails: the loop `break`s
and the program exits with code `0` and no OOM report — refuting
"every allocation failure … reports the failure, and exits with a
non-zero exit code". -/
theorem resize_alloc_failure_silent_exit :
    runMain (1/2) 1 2 3 true [⟨Key.noKey, 5, 3, false⟩] 1
      = ⟨true, false, 0⟩ := rfl

/-- C2 amended: every exit path (allocation failures included) runs
`endwin` before the process exits; a startup allocation failure reports
OOM and exits `1`; a resize allocation failure exits silently with
code `0` (terminal mode is still torn down, but nothing is reported and
the exit code is zero). -/
theorem alloc_failure_exit_paths (density mul : ℚ) (w h : Nat)
    (frames frames2 : List FrameEv) (s s2 : Nat) (ok : Bool)
    (cols : List Column) (maxx maxy : Nat) (p : Bool) (f : FrameEv)
    (hk : f.key ≠ Key.quit) (hr : f.nx ≠ maxx ∨ f.ny ≠ maxy)
    (ha : f.allocOk = false) :
    runFrames density mul (f :: frames) cols maxx maxy p s
        = ⟨true, false, 0⟩ ∧
    runMain density mul w h false frames2 s2 = ⟨true, true, 1⟩ ∧
    (runMain density mul w h ok frames2 s2).endwinCalled = true := by
  refine ⟨?_, rfl, ?_⟩
  · simp only [runFrames]
    rw [if_neg hk, if_pos hr, ha]
    simp
  · cases ok with
    | true =>
      simp only [runMain, if_pos]
      exact runFrames_endwin density mul _ _ _ _ _ _
    | false => rfl

/-- C2 amended, witness: frame events with a non-quit key, a changed
viewport and a failing allocation. -/
theorem alloc_failure_exit_paths_witness :
    runFrames (1/2) 1 [⟨Key.noKey, 5, 3, false⟩] [] 2 3 false 1
        = ⟨true, false, 0⟩ ∧
    runMain (1/2) 1 2 3 false [] 7 = ⟨true, true, 1⟩ ∧
    (runMain (1/2) 1 2 3 true [] 7).endwinCalled = true :=
  alloc_failure_exit_paths (1/2) 1 2 3 [] [] 1 7 true [] 2 3 false
    ⟨Key.noKey, 5, 3, false⟩ (by decide) (Or.inl (by decide)) rfl

/-- C5: if an active column satisfies the reset condition
`head_position - trail_length > viewport_height` after its head advance,
the same tick reinitializes it with the construction formulas — a fresh
activity roll `drand() < density`, a trail length in `[5, 24]`, a speed
`(0.4 + u·1.2)·speed_mul` with `u ∈ [0,1]` — and the fresh head satisfies
`-viewport_height < head_position ≤ 0`, for every RNG state, provided
`viewport_height > 0`. -/
theorem reset_law (density mul : ℚ) (maxy : Nat) (c : Column) (s : Nat)
    (hy : 0 < maxy) (ha : c.active = true)
    (hreset : (advanceHead c s).1.head_y - (advanceHead c s).1.tail
      > (maxy : Int)) :
    (columnStep density mul maxy c s).1.head_y ≤ 0 ∧
    -(maxy : Int) < (columnStep density mul maxy c s).1.head_y ∧
    5 ≤ (columnStep density mul maxy c s).1.tail ∧
    (columnStep density mul maxy c s).1.tail ≤ 24 ∧
    (∃ u : ℚ, 0 ≤ u ∧ u ≤ 1 ∧
      (columnStep density mul maxy c s).1.speed = (0.4 + u * 1.2) * mul) ∧
    (∃ s', (columnStep density mul maxy c s).1.active
      = decide ((drand s').1 < density)) := by
  have hstep : columnStep density mul maxy c s
      = resetColumn density mul maxy (advanceHead c s).2 := by
    simp only [columnStep, ha, if_true]
    rw [if_pos hreset]
  rw [hstep]
  simp only [resetColumn]
  have h1 := irand_fst_lt maxy (drand (advanceHead c s).2).2 hy
  have h2 := irand_fst_lt 20
    (irand maxy (drand (advanceHead c s).2).2).2 (by norm_num)
  refine ⟨by omega, by omega, by omega, by omega, ?_, ?_⟩
  · exact ⟨_, drand_nonneg _, drand_le_one _, rfl⟩
  · exact ⟨(advanceHead c s).2, rfl⟩

/-- C5 witness: a column at `head = 100`, `tail = 5`, `speed = 2` over a
viewport of height `3` trips the reset condition after advancing. -/
theorem reset_law_witness :
    (columnStep (1/2) 1 3 ⟨100, 5, 2, true⟩ 1).1.head_y ≤ 0 ∧
    -((3 : Nat) : Int) < (columnStep (1/2) 1 3 ⟨100, 5, 2, true⟩ 1).1.head_y ∧
    5 ≤ (columnStep (1/2) 1 3 ⟨100, 5, 2, true⟩ 1).1.tail ∧
    (columnStep (1/2) 1 3 ⟨100, 5, 2, true⟩ 1).1.tail ≤ 24 ∧
    (∃ u : ℚ, 0 ≤ u ∧ u ≤ 1 ∧
      (columnStep (1/2) 1 3 ⟨100, 5, 2, true⟩ 1).1.speed
        = (0.4 + u * 1.2) * 1) ∧
    (∃ s', (columnStep (1/2) 1 3 ⟨100, 5, 2, true⟩ 1).1.active
      = decide ((drand s').1 < 1/2)) :=
  reset_law (1/2) 1 3 ⟨100, 5, 2, true⟩ 1 (by norm_num) rfl (by
    norm_num [advanceHead, cIntCast])

/-! ### Trail-length bounds -/

theorem advanceHead_tail_eq (c : Column) (s : Nat) :
    (advanceHead c s).1.tail = c.tail := by
  simp only [advanceHead]
  split <;> rfl

theorem initColumn_tail_bounds (density mul : ℚ) (hgt s : Nat) :
    5 ≤ (initColumn density mul hgt s).1.tail ∧
    (initColumn density mul hgt s).1.tail ≤ 24 := by
  simp only [initColumn]
  have := irand_fst_lt 20 (drand s).2 (by norm_num)
  constructor <;> omega

theorem resetColumn_tail_bounds (density mul : ℚ) (maxy s : Nat) :
    5 ≤ (resetColumn density mul maxy s).1.tail ∧
    (resetColumn density mul maxy s).1.tail ≤ 24 := by
  simp only [resetColumn]
  have := irand_fst_lt 20 (irand maxy (drand s).2).2 (by norm_num)
  constructor <;> omega

theorem activateRoll_tail_bounds (density mul : ℚ) (maxy : Nat)
    (c : Column) (s : Nat) (h : 5 ≤ c.tail ∧ c.tail ≤ 24) :
    5 ≤ (activateRoll density mul maxy c s).1.tail ∧
    (activateRoll density mul maxy c s).1.tail ≤ 24 := by
  simp only [activateRoll]
  split
  · have := irand_fst_lt 20 (irand maxy (drand s).2).2 (by norm_num)
    refine ⟨?_, ?_⟩ <;> simp only [] <;> omega
  · exact h

theorem columnStep_tail_bounds (density mul : ℚ) (maxy : Nat)
    (c : Column) (s : Nat) (h : 5 ≤ c.tail ∧ c.tail ≤ 24) :
    5 ≤ (columnStep density mul maxy c s).1.tail ∧
    (columnStep density mul maxy c s).1.tail ≤ 24 := by
  simp only [columnStep]
  split
  · split
    · exact resetColumn_tail_bounds density mul maxy _
    · rw [advanceHead_tail_eq]
      exact h
  · exact activateRoll_tail_bounds density mul maxy c s h

theorem constructCols_tail_bounds (density mul : ℚ) (hgt : Nat) :
    ∀ w s, ∀ c ∈ (constructCols density mul hgt w s).1,
      5 ≤ c.tail ∧ c.tail ≤ 24 := by
  intro w
  induction w with
  | zero => intro s c hc; simp [constructCols] at hc
  | succ w ih =>
    intro s c hc
    simp only [constructCols, List.mem_cons] at hc
    rcases hc with hc | hc
    · subst hc
      exact initColumn_tail_bounds density mul hgt s
    · exact ih _ c hc

theorem simAdvance_tail_bounds (density mul : ℚ) (maxy : Nat) :
    ∀ cols s, (∀ c ∈ cols, 5 ≤ c.tail ∧ c.tail ≤ 24) →
      ∀ c ∈ (simAdvance density mul maxy cols s).1,
        5 ≤ c.tail ∧ c.tail ≤ 24 := by
  intro cols
  induction cols with
  | nil => intro s _ c hc; simp [simAdvance] at hc
  | cons c0 rest ih =>
    intro s hall c hc
    simp only [simAdvance, List.mem_cons] at hc
    rcases hc with hc | hc
    · subst hc
      exact columnStep_tail_bounds density mul maxy c0 s
        (hall c0 (List.mem_cons_self c0 rest))
    · exact ih _ (fun d hd => hall d (List.mem_cons_of_mem c0 hd)) c hc

theorem reflow_tail_bounds (density mul : ℚ) (ny : Nat)
    (cols : List Column) (nx s : Nat)
    (hall : ∀ c ∈ cols, 5 ≤ c.tail ∧ c.tail ≤ 24) :
    ∀ c ∈ (reflow density mul ny cols nx s).1,
      5 ≤ c.tail ∧ c.tail ≤ 24 := by
  intro c hc
  simp only [reflow, List.mem_append] at hc
  rcases hc with hc | hc
  · exact hall c (List.take_subset _ _ hc)
  · exact constructCols_tail_bounds density mul ny _ s c hc

theorem runOps_tail_bounds (density mul : ℚ) :
    ∀ (ops : List Op) (st : FieldState),
      (∀ c ∈ st.cols, 5 ≤ c.tail ∧ c.tail ≤ 24) →
      ∀ c ∈ (runOps density mul st ops).cols,
        5 ≤ c.tail ∧ c.tail ≤ 24 := by
  intro ops
  induction ops with
  | nil => intro st h; exact h
  | cons op rest ih =>
    intro st h
    refine ih _ ?_
    cases op with
    | tick => exact simAdvance_tail_bounds density mul st.maxy st.cols st.rng h
    | resize nx ny => exact reflow_tail_bounds density mul ny st.cols nx st.rng h

/-- C6: every column of a constructed field, after any sequence of
simulator ticks and resizes (hence through construction, reset,
reactivation and resize-growth initialization), has `trail_length`
between `5` and `24`. -/
theorem trail_length_invariant (density mul : ℚ) (w hgt s : Nat)
    (ops : List Op) :
    ∀ c ∈ (runOps density mul
        ⟨(constructCols density mul hgt w s).1, hgt,
          (constructCols density mul hgt w s).2⟩ ops).cols,
      5 ≤ c.tail ∧ c.tail ≤ 24 :=
  runOps_tail_bounds density mul ops _
    (fun c hc => constructCols_tail_bounds density mul hgt w s c hc)

/-- C6 witness: the single column of a 1-wide field, no ticks. -/
theorem trail_length_invariant_witness :
    5 ≤ (initColumn (1/2) 1 3 1).1.tail ∧
    (initColumn (1/2) 1 3 1).1.tail ≤ 24 :=
  trail_length_invariant (1/2) 1 1 3 1 [] (initColumn (1/2) 1 3 1).1 (by
    simp [runOps, constructCols])

/-- C7: in a tick where an active column with positive speed is not
reset, its head only moves down: the added step is nonnegative, is at
most `1` when `speed < 1` (the Bernoulli branch), and is
`⌊speed⌋ ≥ 1` when `speed ≥ 1`. -/
theorem monotonic_fall (density mul : ℚ) (maxy : Nat) (c : Column)
    (s : Nat) (ha : c.active = true) (_hs : 0 < c.speed)
    (hnr : ¬((advanceHead c s).1.head_y - (advanceHead c s).1.tail
      > (maxy : Int))) :
    ∃ step : Int,
      (columnStep density mul maxy c s).1.head_y = c.head_y + step ∧
      0 ≤ step ∧ (1 ≤ c.speed → 1 ≤ step) ∧ (c.speed < 1 → step ≤ 1) := by
  have hstep : columnStep density mul maxy c s = advanceHead c s := by
    simp only [columnStep, ha, if_true]
    rw [if_neg hnr]
  rw [hstep]
  by_cases hlt : c.speed < 1
  · refine ⟨if (drand s).1 < c.speed then 1 else 0, ?_, ?_, ?_, ?_⟩
    · simp only [advanceHead]
      rw [if_pos hlt]
    · split <;> omega
    · intro h1
      exact absurd hlt (not_lt.mpr h1)
    · intro _
      split <;> omega
  · have h1 : (1 : ℚ) ≤ c.speed := not_lt.mp hlt
    have hc : cIntCast c.speed = ⌊c.speed⌋ :=
      if_neg (not_lt.mpr (le_trans zero_le_one h1))
    have hfl : (1 : Int) ≤ ⌊c.speed⌋ := by
      rw [Int.le_floor]
      exact_mod_cast h1
    refine ⟨cIntCast c.speed, ?_, ?_, ?_, ?_⟩
    · simp only [advanceHead]
      rw [if_neg hlt]
    · rw [hc]; omega
    · intro _
      rw [hc]; omega
    · intro hlt'
      exact absurd hlt' hlt

/-- C7 witness: an active column with speed `1/2`, far from the reset
condition. -/
theorem monotonic_fall_witness :
    ∃ step : Int,
      (columnStep (1/2) 1 10 ⟨0, 5, 1/2, true⟩ 1).1.head_y = 0 + step ∧
      0 ≤ step ∧ ((1 : ℚ) ≤ 1/2 → 1 ≤ step) ∧
      ((1/2 : ℚ) < 1 → step ≤ 1) :=
  monotonic_fall (1/2) 1 10 ⟨0, 5, 1/2, true⟩ 1 rfl (by norm_num) (by
    simp only [advanceHead]
    rw [if_pos (show (1/2 : ℚ) < 1 by norm_num)]
    simp only []
    split <;> omega)

theorem constructCols_length (density mul : ℚ) (hgt : Nat) :
    ∀ w s, (constructCols density mul hgt w s).1.length = w := by
  intro w
  induction w with
  | zero => intro s; rfl
  | succ w ih =>
    intro s
    simp only [constructCols, List.length_cons]
    rw [ih]

/-- C8: reflowing from width `w1 = cols.length` to a larger width `w2`
keeps the first `w1` columns exactly as they were, appends exactly the
`w2 - w1` freshly constructed columns (initialized as in construction
with the new height), and yields a field of length `w2`. -/
theorem reflow_preserves_old_columns (density mul : ℚ) (ny : Nat)
    (cols : List Column) (w2 s : Nat) (h2 : cols.length < w2) :
    (reflow density mul ny cols w2 s).1.take cols.length = cols ∧
    (reflow density mul ny cols w2 s).1.drop cols.length
      = (constructCols density mul ny (w2 - cols.length) s).1 ∧
    (reflow density mul ny cols w2 s).1.length = w2 := by
  have htake : cols.take w2 = cols := List.take_of_length_le (le_of_lt h2)
  simp only [reflow, htake]
  refine ⟨List.take_left cols _, List.drop_left cols _, ?_⟩
  rw [List.length_append, constructCols_length]
  omega

/-- C8 witness: growing a 1-wide field to width 2. -/
theorem reflow_preserves_old_columns_witness :
    (reflow (1/2) 1 3 [⟨0, 5, 1, true⟩] 2 1).1.take 1 = [⟨0, 5, 1, true⟩] ∧
    (reflow (1/2) 1 3 [⟨0, 5, 1, true⟩] 2 1).1.drop 1
      = (constructCols (1/2) 1 3 1 1).1 ∧
    (reflow (1/2) 1 3 [⟨0, 5, 1, true⟩] 2 1).1.length = 2 :=
  reflow_preserves_old_columns (1/2) 1 3 [⟨0, 5, 1, true⟩] 2 1 (by simp)

/-- C9: the `--density` branch of the argument parser clamps any value
into `[0, 1]` (below `0` behaves exactly as `0`, above `1` exactly as
`1`) and just continues with the remaining arguments — it never produces
a usage message or error exit. -/
theorem density_arg_clamped (v : ℚ) (rest : List ArgTok) (cfg : Config) :
    parseArgs (ArgTok.densityTok v :: rest) cfg
      = parseArgs rest { cfg with density := max 0 (min 1 v) } ∧
    0 ≤ max 0 (min 1 v) ∧ max 0 (min 1 v) ≤ (1 : ℚ) := by
  have hD : (if (if v < 0 then (0 : ℚ) else v) > 1 then 1
      else (if v < 0 then (0 : ℚ) else v)) = max 0 (min 1 v) := by
    by_cases h0 : v < 0
    · rw [if_pos h0, if_neg (show ¬((0 : ℚ) > 1) by norm_num),
        min_eq_right (h0.le.trans zero_le_one), max_eq_left h0.le]
    · by_cases h1 : v > 1
      · rw [if_neg h0, if_pos h1, min_eq_left h1.le,
          max_eq_right zero_le_one]
      · rw [if_neg h0, if_neg h1, min_eq_right (not_lt.mp h1),
          max_eq_right (not_lt.mp h0)]
  refine ⟨?_, le_max_left _ _, max_le (by norm_num) (min_le_left _ _)⟩
  simp only [parseArgs, hD]

/-! ### Freezing under a non-positive speed multiplier -/

theorem columnStep_frozen (density mul : ℚ) (maxy : Nat) (c : Column)
    (s : Nat) (ha : c.active = true) (hsp : c.speed ≤ 0)
    (hht : c.head_y - c.tail ≤ (maxy : Int)) :
    (columnStep density mul maxy c s).1 = c := by
  have hadv : (advanceHead c s).1 = c := by
    simp only [advanceHead]
    rw [if_pos (lt_of_le_of_lt hsp zero_lt_one),
      if_neg (not_lt.mpr (le_trans hsp (drand_nonneg s)))]
    simp only [add_zero]
  simp only [columnStep, ha, if_true]
  rw [hadv, if_neg (not_lt.mpr hht)]
  exact hadv

theorem columnIter_frozen (density mul : ℚ) (maxy : Nat) (c : Column)
    (ha : c.active = true) (hsp : c.speed ≤ 0)
    (hht : c.head_y - c.tail ≤ (maxy : Int)) :
    ∀ n s, (columnIter density mul maxy n c s).1 = c := by
  intro n
  induction n with
  | zero => intro s; rfl
  | succ n ih =>
    intro s
    simp only [columnIter]
    rw [columnStep_frozen density mul maxy c s ha hsp hht]
    exact ih _

theorem initColumn_speed_nonpos (density mul : ℚ) (hgt s0 : Nat)
    (hm : mul ≤ 0) :
    (initColumn density mul hgt s0).1.speed ≤ 0 ∧
    (initColumn density mul hgt s0).1.head_y ≤ 0 ∧
    5 ≤ (initColumn density mul hgt s0).1.tail := by
  simp only [initColumn]
  refine ⟨?_, by omega, by omega⟩
  apply mul_nonpos_iff.mpr
  left
  refine ⟨?_, hm⟩
  have hu := drand_nonneg (irand 20 (drand s0).2).2
  have : (0 : ℚ) ≤ (drand (irand 20 (drand s0).2).2).1 * 1.2 :=
    mul_nonneg hu (by norm_num)
  linarith

/-- C10: with a non-positive speed multiplier, every column drawn at
construction has non-positive speed; if such a column starts active, its
Bernoulli step never fires: the whole column record is unchanged by every
number of ticks (for any viewport height and RNG state), and its reset
condition `head_y - tail > maxy` never holds. -/
theorem nonpositive_speed_freezes (density mul : ℚ) (hgt maxy s0 : Nat)
    (hm : mul ≤ 0) (_hh : 0 < hgt)
    (ha : (initColumn density mul hgt s0).1.active = true) :
    (∀ n s, (columnIter density mul maxy n
        (initColumn density mul hgt s0).1 s).1
      = (initColumn density mul hgt s0).1) ∧
    (initColumn density mul hgt s0).1.head_y
        - (initColumn density mul hgt s0).1.tail ≤ (maxy : Int) := by
  obtain ⟨hsp, hhd, htl⟩ := initColumn_speed_nonpos density mul hgt s0 hm
  have hht : (initColumn density mul hgt s0).1.head_y
      - (initColumn density mul hgt s0).1.tail ≤ (maxy : Int) := by omega
  exact ⟨columnIter_frozen density mul maxy _ ha hsp hht, hht⟩

/-- C10 witness: `density = 1`, `mul = 0`, height `3`, viewport height
`5`, two ticks. -/
theorem nonpositive_speed_freezes_witness :
    (columnIter 1 0 5 2 (initColumn 1 0 3 1).1 7).1
      = (initColumn 1 0 3 1).1 ∧
    (initColumn 1 0 3 1).1.head_y - (initColumn 1 0 3 1).1.tail
      ≤ ((5 : Nat) : Int) := by
  have h := nonpositive_speed_freezes 1 0 3 5 1 le_rfl (by norm_num) (by
    simp only [initColumn]
    rw [decide_eq_true_eq, drand_lt_one_iff]
    decide)
  exact ⟨h.1 2 7, h.2⟩

end Matrix
